import Mathlib

/-!
Verification of the myox link-layer library.

This file is a shallow embedding of the parts of the repository that the
claims concern: the ARP codec (src/arp/arp.rs), the Ethernet codec
(src/arp/ether.rs) and the raw-socket channel (src/arp/channel.rs).

Modelling conventions:
- byte buffers are `List Nat`, each element a byte value (below 256 where
  that matters, stated as a hypothesis);
- Rust operations that can panic (out-of-range indexing, `copy_from_slice`
  with mismatched lengths, `unwrap`) are modelled as `Option`-returning
  functions, with `none` marking the panic;
- syscall-dependent code (socket, bind, pselect, sendto, recvfrom) is
  modelled as pure functions taking the syscall outcomes as explicit
  inputs: a `SyscallRet` carries the raw return value and the errno the
  OS would report for it.
-/

namespace Myox

/-- Half-open byte range, mirroring `type Field = Range<usize>` in arp.rs:
`.1` is `start`, `.2` is `end`. -/
abbrev Field := Nat × Nat

namespace arp

/-- The error enumeration of arp.rs (the codec itself only ever produces
`Truncated`). -/
inductive Error where
  | Exhausted
  | Illegal
  | Unaddressable
  | Truncated
  | Checksum
  | Unrecognized
  | Fragmented
  | Malformed
  | Dropped
deriving DecidableEq

/-- arp.rs: `pub const HTYPE: Field = 0..2`. -/
def HTYPE : Field := (0, 2)

/-- arp.rs: `pub const PTYPE: Field = 2..4`. -/
def PTYPE : Field := (2, 4)

/-- arp.rs: `pub const HLEN: usize = 4`. -/
def HLEN : Nat := 4

/-- arp.rs: `pub const PLEN: usize = 5`. -/
def PLEN : Nat := 5

/-- arp.rs: `pub const OPER: Field = 6..8`. -/
def OPER : Field := (6, 8)

/-- arp.rs `SHA`: sender hardware address range, starting at `OPER.end`. -/
def SHA (hardware_len _protocol_len : Nat) : Field :=
  (OPER.2, OPER.2 + hardware_len)

/-- arp.rs `SPA`: sender protocol address range, starting at `SHA(..).end`. -/
def SPA (hardware_len protocol_len : Nat) : Field :=
  ((SHA hardware_len protocol_len).2, (SHA hardware_len protocol_len).2 + protocol_len)

/-- arp.rs `THA`: target hardware address range, starting at `SPA(..).end`. -/
def THA (hardware_len protocol_len : Nat) : Field :=
  ((SPA hardware_len protocol_len).2, (SPA hardware_len protocol_len).2 + hardware_len)

/-- arp.rs `TPA`: target protocol address range, starting at `THA(..).end`. -/
def TPA (hardware_len protocol_len : Nat) : Field :=
  ((THA hardware_len protocol_len).2, (THA hardware_len protocol_len).2 + protocol_len)

/-- Membership of a byte offset in a `Field` range. -/
def inField (f : Field) (i : Nat) : Prop := f.1 ≤ i ∧ i < f.2

instance (f : Field) (i : Nat) : Decidable (inField f i) := by
  unfold inField; infer_instance

/-- Rust slice read `&data[start..end]`: panics (`none`) unless
`start ≤ end ∧ end ≤ data.len()`; otherwise yields the sub-slice. -/
def sliceRange (buffer : List Nat) (f : Field) : Option (List Nat) :=
  if f.1 ≤ f.2 ∧ f.2 ≤ buffer.length then
    some ((buffer.drop f.1).take (f.2 - f.1))
  else
    none

/-- Rust `data[start..end].copy_from_slice(value)`: panics (`none`) on an
invalid range or when `value` is not exactly the range's length; otherwise
replaces the range with `value`. -/
def writeRange (buffer : List Nat) (f : Field) (value : List Nat) : Option (List Nat) :=
  if f.1 ≤ f.2 ∧ f.2 ≤ buffer.length ∧ value.length = f.2 - f.1 then
    some (buffer.take f.1 ++ (value ++ buffer.drop f.2))
  else
    none

/-- arp.rs `Packet::hardware_len`: `data[HLEN]`, panicking (`none`) when the
buffer is shorter than 5 bytes. -/
def hardware_len (buffer : List Nat) : Option Nat := buffer[HLEN]?

/-- arp.rs `Packet::protocol_len`: `data[PLEN]`. -/
def protocol_len (buffer : List Nat) : Option Nat := buffer[PLEN]?

/-- arp.rs `Packet::check_len`: truncated when shorter than `OPER.end`, or
shorter than `TPA(hardware_len, protocol_len).end`.  The `getD` reads are
exact images of `data[HLEN]`/`data[PLEN]` because the first branch already
guarantees the buffer is at least 8 bytes long. -/
def check_len (buffer : List Nat) : Except Error Unit :=
  if buffer.length < OPER.2 then
    .error .Truncated
  else if buffer.length < (TPA (buffer.getD HLEN 0) (buffer.getD PLEN 0)).2 then
    .error .Truncated
  else
    .ok ()

/-- arp.rs `Packet::source_hardware_addr`: reads the declared lengths, then
slices `data[SHA(h, p)]`. -/
def source_hardware_addr (buffer : List Nat) : Option (List Nat) :=
  match buffer[HLEN]?, buffer[PLEN]? with
  | some h, some p => sliceRange buffer (SHA h p)
  | _, _ => none

/-- arp.rs `Packet::source_protocol_addr`. -/
def source_protocol_addr (buffer : List Nat) : Option (List Nat) :=
  match buffer[HLEN]?, buffer[PLEN]? with
  | some h, some p => sliceRange buffer (SPA h p)
  | _, _ => none

/-- arp.rs `Packet::target_hardware_addr`. -/
def target_hardware_addr (buffer : List Nat) : Option (List Nat) :=
  match buffer[HLEN]?, buffer[PLEN]? with
  | some h, some p => sliceRange buffer (THA h p)
  | _, _ => none

/-- arp.rs `Packet::target_protocol_addr`. -/
def target_protocol_addr (buffer : List Nat) : Option (List Nat) :=
  match buffer[HLEN]?, buffer[PLEN]? with
  | some h, some p => sliceRange buffer (TPA h p)
  | _, _ => none

/-- arp.rs `Packet::set_source_hardware_addr`: reads the declared lengths,
then `data[SHA(h, p)].copy_from_slice(value)` (panics on length mismatch). -/
def set_source_hardware_addr (buffer value : List Nat) : Option (List Nat) :=
  match buffer[HLEN]?, buffer[PLEN]? with
  | some h, some p => writeRange buffer (SHA h p) value
  | _, _ => none

/-- arp.rs `Packet::set_source_protocol_addr`. -/
def set_source_protocol_addr (buffer value : List Nat) : Option (List Nat) :=
  match buffer[HLEN]?, buffer[PLEN]? with
  | some h, some p => writeRange buffer (SPA h p) value
  | _, _ => none

/-- arp.rs `Packet::set_target_hardware_addr`. -/
def set_target_hardware_addr (buffer value : List Nat) : Option (List Nat) :=
  match buffer[HLEN]?, buffer[PLEN]? with
  | some h, some p => writeRange buffer (THA h p) value
  | _, _ => none

/-- arp.rs `Packet::set_target_protocol_addr`. -/
def set_target_protocol_addr (buffer value : List Nat) : Option (List Nat) :=
  match buffer[HLEN]?, buffer[PLEN]? with
  | some h, some p => writeRange buffer (TPA h p) value
  | _, _ => none

/-- arp.rs `enum Protocol` generated by `enum_with_unknown`. -/
inductive Protocol where
  | Ipv4
  | Arp
  | Ipv6
  | Unknown (value : Nat)
deriving DecidableEq

/-- The `From<u16> for Protocol` impl generated by `enum_with_unknown`: the
match on the literal codes, any other code going to `Unknown`. -/
def Protocol.ofCode (value : Nat) : Protocol :=
  if value = 0x0800 then .Ipv4
  else if value = 0x0806 then .Arp
  else if value = 0x86DD then .Ipv6
  else .Unknown value

/-- The `From<Protocol> for u16` impl generated by `enum_with_unknown`. -/
def Protocol.toCode : Protocol → Nat
  | .Ipv4 => 0x0800
  | .Arp => 0x0806
  | .Ipv6 => 0x86DD
  | .Unknown value => value

/-- arp.rs `enum Hardware` generated by `enum_with_unknown`. -/
inductive Hardware where
  | Ethernet
  | Unknown (value : Nat)
deriving DecidableEq

/-- The `From<u16> for Hardware` impl. -/
def Hardware.ofCode (value : Nat) : Hardware :=
  if value = 1 then .Ethernet else .Unknown value

/-- The `From<Hardware> for u16` impl. -/
def Hardware.toCode : Hardware → Nat
  | .Ethernet => 1
  | .Unknown value => value

/-- arp.rs `enum Operation` generated by `enum_with_unknown`. -/
inductive Operation where
  | Request
  | Reply
  | Unknown (value : Nat)
deriving DecidableEq

/-- The `From<u16> for Operation` impl. -/
def Operation.ofCode (value : Nat) : Operation :=
  if value = 1 then .Request
  else if value = 2 then .Reply
  else .Unknown value

/-- The `From<Operation> for u16` impl. -/
def Operation.toCode : Operation → Nat
  | .Request => 1
  | .Reply => 2
  | .Unknown value => value

end arp

namespace ether

/-- network_interface.rs `MacAddr`: a tuple struct of six bytes; fields
`a`..`f` stand for `.0`..`.5`. -/
structure MacAddr where
  a : Nat
  b : Nat
  c : Nat
  d : Nat
  e : Nat
  f : Nat
deriving DecidableEq

/-- ether.rs `EtherType`: a newtype over the 16-bit code. -/
structure EtherType where
  val : Nat
deriving DecidableEq

/-- ether.rs `EtherType::new`. -/
def EtherType.new (val : Nat) : EtherType := ⟨val⟩

/-- ether.rs `EthernetPacket`: an immutable view; the Rust type invariant
(only constructible over at least 14 bytes) is carried as a proof field. -/
structure EthernetPacket where
  packet : List Nat
  len_ok : 14 ≤ packet.length

/-- ether.rs `MutableEthernetPacket`. -/
structure MutableEthernetPacket where
  packet : List Nat
  len_ok : 14 ≤ packet.length

/-- ether.rs `EthernetPacket::minimum_packet_size()`. -/
def minimum_packet_size : Nat := 14

/-- ether.rs `EthernetPacket::new`: `Some` view over the buffer when it is at
least `minimum_packet_size` bytes, else `None`. -/
def EthernetPacket.new (packet : List Nat) : Option EthernetPacket :=
  if h : minimum_packet_size ≤ packet.length then some ⟨packet, h⟩ else none

/-- ether.rs `EthernetPacket::owned`: the same length check, taking ownership
of the vector (ownership is invisible in the model). -/
def EthernetPacket.owned (packet : List Nat) : Option EthernetPacket :=
  if h : minimum_packet_size ≤ packet.length then some ⟨packet, h⟩ else none

/-- ether.rs `MutableEthernetPacket::new`. -/
def MutableEthernetPacket.new (packet : List Nat) : Option MutableEthernetPacket :=
  if h : minimum_packet_size ≤ packet.length then some ⟨packet, h⟩ else none

/-- ether.rs `MutableEthernetPacket::owned`. -/
def MutableEthernetPacket.owned (packet : List Nat) : Option MutableEthernetPacket :=
  if h : minimum_packet_size ≤ packet.length then some ⟨packet, h⟩ else none

/-- Single byte read `self.packet[i]` inside the accessors.  The source
indexes without a check; the indices used (0..13) are always in range by the
view's length invariant, so `getD` agrees with the Rust indexing. -/
def MutableEthernetPacket.byte (s : MutableEthernetPacket) (i : Nat) : Nat :=
  s.packet.getD i 0

/-- ether.rs `MutableEthernetPacket::get_destination`: bytes 0..5. -/
def MutableEthernetPacket.get_destination (s : MutableEthernetPacket) : MacAddr :=
  ⟨s.byte 0, s.byte 1, s.byte 2, s.byte 3, s.byte 4, s.byte 5⟩

/-- ether.rs `MutableEthernetPacket::get_source`: bytes 6..11. -/
def MutableEthernetPacket.get_source (s : MutableEthernetPacket) : MacAddr :=
  ⟨s.byte 6, s.byte 7, s.byte 8, s.byte 9, s.byte 10, s.byte 11⟩

/-- ether.rs `MutableEthernetPacket::get_ethertype`:
`((packet[12] as u16) << 8) | (packet[13] as u16)`. -/
def MutableEthernetPacket.get_ethertype (s : MutableEthernetPacket) : EtherType :=
  EtherType.new ((s.byte 12 <<< 8) ||| s.byte 13)

/-- ether.rs `MutableEthernetPacket::set_destination`: writes the six bytes of
`val` at offsets 0..5 (each `set_argN` is one byte store). -/
def MutableEthernetPacket.set_destination (s : MutableEthernetPacket) (val : MacAddr) :
    MutableEthernetPacket :=
  ⟨(((((s.packet.set 0 val.a).set 1 val.b).set 2 val.c).set 3 val.d).set 4 val.e).set 5 val.f,
   by simpa using s.len_ok⟩

/-- ether.rs `MutableEthernetPacket::set_source`: offsets 6..11. -/
def MutableEthernetPacket.set_source (s : MutableEthernetPacket) (val : MacAddr) :
    MutableEthernetPacket :=
  ⟨(((((s.packet.set 6 val.a).set 7 val.b).set 8 val.c).set 9 val.d).set 10 val.e).set 11 val.f,
   by simpa using s.len_ok⟩

/-- ether.rs `MutableEthernetPacket::set_ethertype`:
`packet[12] = ((val & 65280) >> 8) as u8; packet[13] = val as u8`. -/
def MutableEthernetPacket.set_ethertype (s : MutableEthernetPacket) (val : EtherType) :
    MutableEthernetPacket :=
  ⟨(s.packet.set 12 (((val.val &&& 65280) >>> 8) % 256)).set 13 (val.val % 256),
   by simpa using s.len_ok⟩

/-- ether.rs `MutableEthernetPacket::set_payload`: an unchecked
`copy_nonoverlapping` of `vals.len()` bytes starting at offset 14 of the
backing buffer.  The result is the contents of the written memory region:
when `vals` fits, this is the buffer with its payload replaced; when `vals`
is longer than `len - 14`, the result extends PAST the end of the original
buffer (the out-of-bounds write the raw copy performs). -/
def MutableEthernetPacket.set_payload (s : MutableEthernetPacket) (vals : List Nat) : List Nat :=
  s.packet.take 14 ++ (vals ++ s.packet.drop (14 + vals.length))

/-- ether.rs `MutablePacket::clone_from` (default trait method): asserts
`self.packet().len() >= other.packet().len()` (panic, `none`, otherwise),
then copies `other`'s bytes over the front of `self`. -/
def clone_from (self' other : List Nat) : Option (List Nat) :=
  if other.length ≤ self'.length then
    some (other ++ self'.drop other.length)
  else
    none

end ether

namespace Channel

open ether

/-- channel.rs `ChannelType`. -/
inductive ChannelType where
  | Layer2
  | Layer3 (ethertype : EtherType)
deriving DecidableEq

/-- Outcome of one raw syscall as provided by the OS: the returned value and
the errno that `last_os_error()` would report after it. -/
structure SyscallRet where
  ret : Int
  errno : Nat
deriving DecidableEq

/-- Linux `libc::EINTR`. -/
def EINTR : Nat := 4

/-- Linux `libc::SOCK_RAW`. -/
def SOCK_RAW : Nat := 3

/-- Linux `libc::SOCK_DGRAM`. -/
def SOCK_DGRAM : Nat := 2

/-- channel.rs `channel`: `let eth_p_all = 0x0003`. -/
def eth_p_all : Nat := 3

/-- The `(typ, proto)` pair selected by the match at channel.rs lines 60-63.
In the source the first arm's pattern is the bare identifier `Layer2`, which
is not a path to the enum variant (the variant is not imported into scope),
so it is an irrefutable identifier pattern that binds ANY value: both
`Layer2` and `Layer3(..)` are taken by the first arm and the
`ChannelType::Layer3` arm is unreachable (rustc reports an
unreachable-pattern warning there, and the `Config::channel_type` doc
comment says the field is currently ignored). -/
def channel_typ_proto (channel_type : ChannelType) : Nat × Nat :=
  match channel_type with
  | _ => (SOCK_RAW, eth_p_all)

/-- What the spec says the match does: `Layer2` selects a raw socket over all
ethertypes, `Layer3(proto)` a cooked `SOCK_DGRAM` socket bound to `proto`.
Spec-side definition for comparison with `channel_typ_proto`. -/
def channel_typ_proto_spec (channel_type : ChannelType) : Nat × Nat :=
  match channel_type with
  | .Layer2 => (SOCK_RAW, eth_p_all)
  | .Layer3 ethertype => (SOCK_DGRAM, ethertype.val)

/-- The syscall outcomes the `channel` open sequence consumes, in program
order: `socket`, `bind`, `setsockopt(PACKET_ADD_MEMBERSHIP)`,
`fcntl(F_SETFL, O_NONBLOCK)`. -/
structure OsOracle where
  socketRet : Int
  socketErrno : Nat
  bindRet : Int
  bindErrno : Nat
  setsockoptRet : Int
  setsockoptErrno : Nat
  fcntlRet : Int
  fcntlErrno : Nat
deriving DecidableEq

/-- A successfully opened channel: the descriptor now shared by the sender
and receiver halves, and the `(typ, proto)` the socket was created with. -/
structure OpenedChannel where
  fd : Int
  typ : Nat
  proto : Nat
deriving DecidableEq

/-- channel.rs `channel`: the open sequence.  Besides the result
(`error errno` as by `io::Error::last_os_error()`, or the opened channel),
the model returns the list of descriptors closed during the call, so that
descriptor leaks are observable.  Each failing step (`== -1`) closes the
socket and returns that step's errno; on success nothing is closed and the
descriptor is handed to the reference-counted `FileDesc`. -/
def channel (channel_type : ChannelType) (os : OsOracle) :
    Except Nat OpenedChannel × List Int :=
  let tp := channel_typ_proto channel_type
  if os.socketRet = -1 then
    (.error os.socketErrno, [])
  else if os.bindRet = -1 then
    (.error os.bindErrno, [os.socketRet])
  else if os.setsockoptRet = -1 then
    (.error os.setsockoptErrno, [os.socketRet])
  else if os.fcntlRet = -1 then
    (.error os.fcntlErrno, [os.socketRet])
  else
    (.ok ⟨os.socketRet, tp.1, tp.2⟩, [])

/-- channel.rs `internal::retry`: repeats the syscall while it reports
`-1`/`EINTR`; returns the first other outcome, `none` when every attempt in
the (finite) trace is an interruption, i.e. the loop has not yet returned
within the trace. -/
def retry (attempts : List SyscallRet) : Option SyscallRet :=
  attempts.find? fun r => !(r.ret == -1 && r.errno == EINTR)

/-- channel.rs `internal::send_to`: `retry` around `sendto`, then
`Err(last_os_error())` when the result is negative, else the sent length. -/
def internal_send_to (attempts : List SyscallRet) : Option (Except Nat Nat) :=
  match retry attempts with
  | none => none
  | some r => if r.ret < 0 then some (.error r.errno) else some (.ok r.ret.toNat)

/-- channel.rs `internal::recv_from`: same shape as `internal::send_to`. -/
def internal_recv_from (attempts : List SyscallRet) : Option (Except Nat Nat) :=
  match retry attempts with
  | none => none
  | some r => if r.ret < 0 then some (.error r.errno) else some (.ok r.ret.toNat)

/-- The error half of `io::Result` as the channel produces it: an OS errno,
or the synthetic `TimedOut` error. -/
inductive IoErr where
  | timedOut
  | os (errno : Nat)
deriving DecidableEq

/-- Observable outcome of `DataLinkSenderImpl::send_to` (the source wraps it
in an always-`Some` `Option`, dropped here): `diverge` marks the unbounded
retry loop never returning within the supplied attempt trace. -/
inductive SendOutcome where
  | diverge
  | err (e : IoErr)
  | ok
deriving DecidableEq

/-- channel.rs `DataLinkSenderImpl::send_to`: `pselect` on the descriptor
(`-1` surfaces `last_os_error()` — NOT retried on `EINTR`; `0` surfaces
`TimedOut`), then `internal::send_to`. -/
def send_to (pselect : SyscallRet) (attempts : List SyscallRet) : SendOutcome :=
  if pselect.ret = -1 then .err (.os pselect.errno)
  else if pselect.ret = 0 then .err .timedOut
  else
    match internal_send_to attempts with
    | none => .diverge
    | some (.error e) => .err (.os e)
    | some (.ok _) => .ok

/-- Observable outcome of `DataLinkChannelIteratorImpl::next`: additionally
`panicked`, for the `unwrap` of the Ethernet view construction. -/
inductive NextOutcome where
  | diverge
  | err (e : IoErr)
  | panicked
  | ok (pkt : EthernetPacket)

/-- channel.rs `DataLinkChannelIteratorImpl::next`: `pselect` (same error /
timeout handling as `send_to`), then `internal::recv_from` into the scratch
buffer; on a received length `len` the yielded view is
`EthernetPacket::new(&read_buffer[0..len]).unwrap()` — a panic when either
the slice bound or the 14-byte minimum fails. -/
def next (pselect : SyscallRet) (attempts : List SyscallRet) (read_buffer : List Nat) :
    NextOutcome :=
  if pselect.ret = -1 then .err (.os pselect.errno)
  else if pselect.ret = 0 then .err .timedOut
  else
    match internal_recv_from attempts with
    | none => .diverge
    | some (.error e) => .err (.os e)
    | some (.ok len) =>
        if len ≤ read_buffer.length then
          match EthernetPacket.new (read_buffer.take len) with
          | some pkt => .ok pkt
          | none => .panicked
        else
          .panicked

end Channel

/-! Helper lemmas about splicing a value into a byte-range of a list. -/

theorem length_spliced (l v : List Nat) (a b : Nat)
    (hab : a ≤ b) (hb : b ≤ l.length) (hv : v.length = b - a) :
    (l.take a ++ (v ++ l.drop b)).length = l.length := by
  simp [List.length_take, List.length_drop]
  omega

theorem getElem?_spliced (l v : List Nat) (a b i : Nat)
    (hab : a ≤ b) (hb : b ≤ l.length) (hv : v.length = b - a) :
    (l.take a ++ (v ++ l.drop b))[i]? =
      if i < a then l[i]? else if i < b then v[i - a]? else l[i]? := by
  have hta : (l.take a).length = a := by
    simp [List.length_take]
    omega
  by_cases h1 : i < a
  · simp [List.getElem?_append, hta, h1, List.getElem?_take]
  · by_cases h2 : i < b
    · have hlt : i - a < v.length := by omega
      simp [List.getElem?_append, hta, h1, h2, hlt]
    · have hge : ¬ i - a < v.length := by omega
      simp [List.getElem?_append, hta, h1, h2, hge, List.getElem?_drop]
      congr 1
      omega

theorem writeRange_eq (l v : List Nat) (a b : Nat)
    (hab : a ≤ b) (hb : b ≤ l.length) (hv : v.length = b - a) :
    arp.writeRange l (a, b) v = some (l.take a ++ (v ++ l.drop b)) := by
  simp [arp.writeRange, hab, hb, hv]

theorem sliceRange_eq (l : List Nat) (a b : Nat)
    (hab : a ≤ b) (hb : b ≤ l.length) :
    arp.sliceRange l (a, b) = some ((l.drop a).take (b - a)) := by
  simp [arp.sliceRange, hab, hb]

theorem sliceRange_spliced_self (l v : List Nat) (a b : Nat)
    (hab : a ≤ b) (hb : b ≤ l.length) (hv : v.length = b - a) :
    arp.sliceRange (l.take a ++ (v ++ l.drop b)) (a, b) = some v := by
  rw [sliceRange_eq _ _ _ hab (by rw [length_spliced l v a b hab hb hv]; exact hb)]
  congr 1
  apply List.ext_getElem?
  intro j
  rw [List.getElem?_take]
  by_cases hj : j < b - a
  · rw [if_pos hj, List.getElem?_drop, getElem?_spliced l v a b (a + j) hab hb hv,
      if_neg (by omega), if_pos (by omega)]
    congr 1
    omega
  · rw [if_neg hj, eq_comm, List.getElem?_eq_none]
    omega

theorem sliceRange_spliced_untouched (l v : List Nat) (a b c d : Nat)
    (hab : a ≤ b) (hb : b ≤ l.length) (hv : v.length = b - a)
    (hcd : c ≤ d) (hd : d ≤ l.length) (hdisj : d ≤ a ∨ b ≤ c) :
    arp.sliceRange (l.take a ++ (v ++ l.drop b)) (c, d) = arp.sliceRange l (c, d) := by
  rw [sliceRange_eq _ _ _ hcd (by rw [length_spliced l v a b hab hb hv]; exact hd),
    sliceRange_eq _ _ _ hcd hd]
  congr 1
  apply List.ext_getElem?
  intro j
  rw [List.getElem?_take, List.getElem?_take]
  by_cases hj : j < d - c
  · rw [if_pos hj, if_pos hj, List.getElem?_drop, List.getElem?_drop,
      getElem?_spliced l v a b (c + j) hab hb hv]
    rcases hdisj with hda | hbc
    · rw [if_pos (by omega)]
    · rw [if_neg (by omega), if_neg (by omega)]
  · rw [if_neg hj, if_neg hj]

theorem getElem?_spliced_low (l v : List Nat) (a b i : Nat)
    (hab : a ≤ b) (hb : b ≤ l.length) (hv : v.length = b - a) (hi : i < a) :
    (l.take a ++ (v ++ l.drop b))[i]? = l[i]? := by
  rw [getElem?_spliced l v a b i hab hb hv, if_pos hi]

theorem take_spliced (l v : List Nat) (a b k : Nat)
    (hab : a ≤ b) (hb : b ≤ l.length) (hv : v.length = b - a) (hk : k ≤ a) :
    (l.take a ++ (v ++ l.drop b)).take k = l.take k := by
  apply List.ext_getElem?
  intro j
  rw [List.getElem?_take, List.getElem?_take]
  by_cases hj : j < k
  · rw [if_pos hj, if_pos hj, getElem?_spliced_low l v a b j hab hb hv (by omega)]
  · rw [if_neg hj, if_neg hj]

/-! Helper lemmas about single-byte writes and the ethertype bit fiddling. -/

theorem set_getD_self (l : List Nat) (i : Nat) (h : i < l.length) :
    l.set i (l.getD i 0) = l := by
  apply List.ext_getElem?
  intro j
  by_cases hj : j = i
  · subst hj
    rw [List.getElem?_set_eq h, List.getD_eq_getElem?_getD, List.getElem?_eq_getElem h]
    rfl
  · rw [List.getElem?_set_ne (by omega)]

theorem testBit_false_of_lt_256 (x i : Nat) (hx : x < 256) (hi : 8 ≤ i) :
    x.testBit i = false := by
  apply Nat.testBit_lt_two_pow
  calc x < 256 := hx
    _ = 2 ^ 8 := by norm_num
    _ ≤ 2 ^ i := Nat.pow_le_pow_right (by norm_num) hi

theorem lor_shl8_eq_add (a b : Nat) (hb : b < 256) :
    (a <<< 8) ||| b = 256 * a + b := by
  have h256 : (256 : Nat) = 2 ^ 8 := by norm_num
  apply Nat.eq_of_testBit_eq
  intro i
  rw [Nat.testBit_lor, Nat.testBit_shiftLeft,
    h256, Nat.testBit_mul_pow_two_add a (by omega : b < 2 ^ 8) i]
  by_cases hi : i < 8
  · simp [hi, Nat.not_le.mpr hi]
  · have hbf : b.testBit i = false := testBit_false_of_lt_256 b i hb (by omega)
    simp [hi, hbf, Nat.not_lt.mp hi]

theorem land_ff00_eq (a b : Nat) (ha : a < 256) (hb : b < 256) :
    (256 * a + b) &&& 65280 = 256 * a := by
  apply Nat.eq_of_testBit_eq
  intro i
  have hsum : 256 * a + b = 2 ^ 8 * a + b := by norm_num
  have hrhs : 256 * a = 2 ^ 8 * a + 0 := by norm_num
  rw [Nat.testBit_land, hsum, hrhs,
    Nat.testBit_mul_pow_two_add a (show b < 2 ^ 8 by omega) i,
    Nat.testBit_mul_pow_two_add a (show (0 : Nat) < 2 ^ 8 by norm_num) i,
    show (65280 : Nat) = (2 ^ 8 - 1) <<< 8 by norm_num [Nat.shiftLeft_eq],
    Nat.testBit_shiftLeft, Nat.testBit_two_pow_sub_one]
  by_cases hi : i < 8
  · simp [hi, Nat.not_le.mpr hi, Nat.zero_testBit]
  · by_cases hi16 : i < 16
    · simp [hi, Nat.not_lt.mp hi, Nat.zero_testBit, show i - 8 < 8 by omega]
    · have haf : a.testBit (i - 8) = false :=
        testBit_false_of_lt_256 a (i - 8) ha (by omega)
      simp [hi, Nat.not_lt.mp hi, Nat.zero_testBit, haf, show ¬ i - 8 < 8 by omega]

theorem ethertype_hi_byte (a b : Nat) (ha : a < 256) (hb : b < 256) :
    ((((a <<< 8) ||| b) &&& 65280) >>> 8) % 256 = a := by
  rw [lor_shl8_eq_add a b hb, land_ff00_eq a b ha hb, Nat.shiftRight_eq_div_pow,
    show (2 : Nat) ^ 8 = 256 by norm_num]
  omega

theorem ethertype_lo_byte (a b : Nat) (hb : b < 256) :
    ((a <<< 8) ||| b) % 256 = b := by
  rw [lor_shl8_eq_add a b hb]
  omega

theorem MutPkt_eq_of_packet_eq (s t : ether.MutableEthernetPacket)
    (h : s.packet = t.packet) : s = t := by
  cases s
  cases t
  simp only at h
  subst h
  rfl

theorem getD_lt_256 (l : List Nat) (hbytes : ∀ b ∈ l, b < 256) (i : Nat)
    (hi : i < l.length) : l.getD i 0 < 256 := by
  rw [List.getD_eq_getElem?_getD, List.getElem?_eq_getElem hi]
  exact hbytes _ (List.getElem_mem hi)

/-! The claim theorems. -/

/-- Claim C9: converting any 16-bit code into the Hardware, Protocol or
Operation enumeration and back is lossless; known codes map to their named
variant and every other code is kept verbatim in the Unknown variant. -/
theorem claim_C9 (v : Nat) (hv : v < 65536) :
    (arp.Protocol.ofCode v).toCode = v ∧
    (arp.Hardware.ofCode v).toCode = v ∧
    (arp.Operation.ofCode v).toCode = v ∧
    arp.Protocol.ofCode 0x0800 = .Ipv4 ∧
    arp.Protocol.ofCode 0x0806 = .Arp ∧
    arp.Protocol.ofCode 0x86DD = .Ipv6 ∧
    arp.Hardware.ofCode 1 = .Ethernet ∧
    arp.Operation.ofCode 1 = .Request ∧
    arp.Operation.ofCode 2 = .Reply ∧
    (v ≠ 0x0800 → v ≠ 0x0806 → v ≠ 0x86DD → arp.Protocol.ofCode v = .Unknown v) ∧
    (v ≠ 1 → arp.Hardware.ofCode v = .Unknown v) ∧
    (v ≠ 1 → v ≠ 2 → arp.Operation.ofCode v = .Unknown v) := by
  refine ⟨?_, ?_, ?_, by decide, by decide, by decide, by decide, by decide, by decide,
    ?_, ?_, ?_⟩ <;>
    · simp only [arp.Protocol.ofCode, arp.Hardware.ofCode, arp.Operation.ofCode]
      split_ifs <;> simp_all [arp.Protocol.toCode, arp.Hardware.toCode, arp.Operation.toCode]

/-- Witness for C9 at the unknown code 1234. -/
theorem claim_C9_witness :
    (1234 : Nat) < 65536 ∧ (arp.Protocol.ofCode 1234).toCode = 1234 :=
  ⟨by norm_num, (claim_C9 1234 (by norm_num)).1⟩

theorem EthPkt_new_spec (packet : List Nat) :
    ((∃ v, ether.EthernetPacket.new packet = some v) ↔ 14 ≤ packet.length) ∧
    (ether.EthernetPacket.new packet = none ↔ packet.length < 14) ∧
    (∀ v, ether.EthernetPacket.new packet = some v → v.packet = packet) := by
  unfold ether.EthernetPacket.new ether.minimum_packet_size
  by_cases hl : 14 ≤ packet.length
  · rw [dif_pos hl]
    refine ⟨⟨fun _ => hl, fun _ => ⟨⟨packet, hl⟩, rfl⟩⟩, ?_, ?_⟩
    · refine ⟨fun h => absurd h (by simp), fun h => by omega⟩
    · intro v hv
      cases hv
      rfl
  · rw [dif_neg hl]
    refine ⟨⟨?_, fun h => absurd h hl⟩, ⟨fun _ => by omega, fun _ => rfl⟩, ?_⟩
    · rintro ⟨v, hv⟩
      exact absurd hv (by simp)
    · intro v hv
      exact absurd hv (by simp)

theorem EthPkt_owned_spec (packet : List Nat) :
    ((∃ v, ether.EthernetPacket.owned packet = some v) ↔ 14 ≤ packet.length) ∧
    (ether.EthernetPacket.owned packet = none ↔ packet.length < 14) ∧
    (∀ v, ether.EthernetPacket.owned packet = some v → v.packet = packet) := by
  unfold ether.EthernetPacket.owned ether.minimum_packet_size
  by_cases hl : 14 ≤ packet.length
  · rw [dif_pos hl]
    refine ⟨⟨fun _ => hl, fun _ => ⟨⟨packet, hl⟩, rfl⟩⟩, ?_, ?_⟩
    · refine ⟨fun h => absurd h (by simp), fun h => by omega⟩
    · intro v hv
      cases hv
      rfl
  · rw [dif_neg hl]
    refine ⟨⟨?_, fun h => absurd h hl⟩, ⟨fun _ => by omega, fun _ => rfl⟩, ?_⟩
    · rintro ⟨v, hv⟩
      exact absurd hv (by simp)
    · intro v hv
      exact absurd hv (by simp)

theorem MutPkt_new_spec (packet : List Nat) :
    ((∃ v, ether.MutableEthernetPacket.new packet = some v) ↔ 14 ≤ packet.length) ∧
    (ether.MutableEthernetPacket.new packet = none ↔ packet.length < 14) ∧
    (∀ v, ether.MutableEthernetPacket.new packet = some v → v.packet = packet) := by
  unfold ether.MutableEthernetPacket.new ether.minimum_packet_size
  by_cases hl : 14 ≤ packet.length
  · rw [dif_pos hl]
    refine ⟨⟨fun _ => hl, fun _ => ⟨⟨packet, hl⟩, rfl⟩⟩, ?_, ?_⟩
    · refine ⟨fun h => absurd h (by simp), fun h => by omega⟩
    · intro v hv
      cases hv
      rfl
  · rw [dif_neg hl]
    refine ⟨⟨?_, fun h => absurd h hl⟩, ⟨fun _ => by omega, fun _ => rfl⟩, ?_⟩
    · rintro ⟨v, hv⟩
      exact absurd hv (by simp)
    · intro v hv
      exact absurd hv (by simp)

theorem MutPkt_owned_spec (packet : List Nat) :
    ((∃ v, ether.MutableEthernetPacket.owned packet = some v) ↔ 14 ≤ packet.length) ∧
    (ether.MutableEthernetPacket.owned packet = none ↔ packet.length < 14) ∧
    (∀ v, ether.MutableEthernetPacket.owned packet = some v → v.packet = packet) := by
  unfold ether.MutableEthernetPacket.owned ether.minimum_packet_size
  by_cases hl : 14 ≤ packet.length
  · rw [dif_pos hl]
    refine ⟨⟨fun _ => hl, fun _ => ⟨⟨packet, hl⟩, rfl⟩⟩, ?_, ?_⟩
    · refine ⟨fun h => absurd h (by simp), fun h => by omega⟩
    · intro v hv
      cases hv
      rfl
  · rw [dif_neg hl]
    refine ⟨⟨?_, fun h => absurd h hl⟩, ⟨fun _ => by omega, fun _ => rfl⟩, ?_⟩
    · rintro ⟨v, hv⟩
      exact absurd hv (by simp)
    · intro v hv
      exact absurd hv (by simp)

/-- Claim C10: the four Ethernet view constructors return a view exactly when
the buffer holds at least 14 bytes, return `none` (no exception) otherwise,
and the view wraps exactly the given buffer. -/
theorem claim_C10 (packet : List Nat) :
    ((∃ v, ether.EthernetPacket.new packet = some v) ↔ 14 ≤ packet.length) ∧
    (ether.EthernetPacket.new packet = none ↔ packet.length < 14) ∧
    (∀ v, ether.EthernetPacket.new packet = some v → v.packet = packet) ∧
    ((∃ v, ether.EthernetPacket.owned packet = some v) ↔ 14 ≤ packet.length) ∧
    (ether.EthernetPacket.owned packet = none ↔ packet.length < 14) ∧
    (∀ v, ether.EthernetPacket.owned packet = some v → v.packet = packet) ∧
    ((∃ v, ether.MutableEthernetPacket.new packet = some v) ↔ 14 ≤ packet.length) ∧
    (ether.MutableEthernetPacket.new packet = none ↔ packet.length < 14) ∧
    (∀ v, ether.MutableEthernetPacket.new packet = some v → v.packet = packet) ∧
    ((∃ v, ether.MutableEthernetPacket.owned packet = some v) ↔ 14 ≤ packet.length) ∧
    (ether.MutableEthernetPacket.owned packet = none ↔ packet.length < 14) ∧
    (∀ v, ether.MutableEthernetPacket.owned packet = some v → v.packet = packet) := by
  obtain ⟨a1, a2, a3⟩ := EthPkt_new_spec packet
  obtain ⟨b1, b2, b3⟩ := EthPkt_owned_spec packet
  obtain ⟨c1, c2, c3⟩ := MutPkt_new_spec packet
  obtain ⟨d1, d2, d3⟩ := MutPkt_owned_spec packet
  exact ⟨a1, a2, a3, b1, b2, b3, c1, c2, c3, d1, d2, d3⟩

/-- Witness for C10: a 14-byte buffer yields a view, a 1-byte buffer yields
none. -/
theorem claim_C10_witness :
    (∃ v, ether.EthernetPacket.new (List.replicate 14 0) = some v) ∧
    ether.MutableEthernetPacket.new [0] = none :=
  ⟨(claim_C10 (List.replicate 14 0)).1.mpr (by decide),
   (claim_C10 [0]).2.2.2.2.2.2.2.1.mpr (by decide)⟩

/-- Claim C2, counterexample: opening with `Layer3(0x0800)` does not create a
`SOCK_DGRAM` socket bound to that ethertype — the socket created is
`SOCK_RAW` with protocol `ETH_P_ALL` (the first match arm's bare `Layer2`
identifier pattern binds every value), differing from the behaviour the
spec describes (`channel_typ_proto_spec`). -/
theorem claim_C2_counterexample :
    Channel.channel (Channel.ChannelType.Layer3 (ether.EtherType.new 2048))
        ⟨5, 0, 0, 0, 0, 0, 0, 0⟩ =
      (.ok ⟨5, Channel.SOCK_RAW, Channel.eth_p_all⟩, []) ∧
    Channel.channel_typ_proto (Channel.ChannelType.Layer3 (ether.EtherType.new 2048)) =
      (Channel.SOCK_RAW, Channel.eth_p_all) ∧
    Channel.channel_typ_proto_spec (Channel.ChannelType.Layer3 (ether.EtherType.new 2048)) =
      (Channel.SOCK_DGRAM, 2048) ∧
    Channel.SOCK_RAW ≠ Channel.SOCK_DGRAM ∧
    Channel.eth_p_all ≠ 2048 := by
  refine ⟨rfl, rfl, rfl, by decide, by decide⟩

/-- Claim C2, amended: the channel open always creates a `SOCK_RAW` socket
with protocol `ETH_P_ALL`, whatever `channel_type` says — the `Layer3` match
arm is dead code. -/
theorem claim_C2_amended (ct : Channel.ChannelType) :
    Channel.channel_typ_proto ct = (Channel.SOCK_RAW, Channel.eth_p_all) := rfl

/-- Claim C3: every failing configuration step of the open sequence closes
the already-created descriptor and surfaces exactly that step's OS error;
a failure of socket creation itself has nothing to close; a successful open
closes nothing and hands the descriptor to the channel. -/
theorem claim_C3 (ct : Channel.ChannelType) (os : Channel.OsOracle) :
    (os.socketRet = -1 →
      Channel.channel ct os = (.error os.socketErrno, [])) ∧
    (os.socketRet ≠ -1 → os.bindRet = -1 →
      Channel.channel ct os = (.error os.bindErrno, [os.socketRet])) ∧
    (os.socketRet ≠ -1 → os.bindRet ≠ -1 → os.setsockoptRet = -1 →
      Channel.channel ct os = (.error os.setsockoptErrno, [os.socketRet])) ∧
    (os.socketRet ≠ -1 → os.bindRet ≠ -1 → os.setsockoptRet ≠ -1 → os.fcntlRet = -1 →
      Channel.channel ct os = (.error os.fcntlErrno, [os.socketRet])) ∧
    (os.socketRet ≠ -1 → os.bindRet ≠ -1 → os.setsockoptRet ≠ -1 → os.fcntlRet ≠ -1 →
      Channel.channel ct os =
        (.ok ⟨os.socketRet, (Channel.channel_typ_proto ct).1,
          (Channel.channel_typ_proto ct).2⟩, [])) := by
  refine ⟨?_, ?_, ?_, ?_, ?_⟩ <;> (intros <;> simp [Channel.channel, *])

/-- Witness for C3: a failing bind (errno 19, ENODEV) on descriptor 7 closes
descriptor 7 and surfaces errno 19. -/
theorem claim_C3_witness :
    Channel.channel Channel.ChannelType.Layer2 ⟨7, 0, -1, 19, 0, 0, 0, 0⟩ =
      (.error 19, [7]) :=
  (claim_C3 Channel.ChannelType.Layer2 ⟨7, 0, -1, 19, 0, 0, 0, 0⟩).2.1 (by decide) rfl

/-- Claim C5, counterexample: `set_payload` of a 1-byte payload on a view
over a buffer of exactly 14 bytes does not panic — the unchecked copy writes
1 byte past the buffer end (the written region is 15 bytes long). -/
theorem claim_C5_counterexample :
    ((⟨List.replicate 14 0, by decide⟩ :
        ether.MutableEthernetPacket).set_payload [7]).length = 15 ∧
    (⟨List.replicate 14 0, by decide⟩ :
        ether.MutableEthernetPacket).packet.length = 14 := by
  constructor <;> rfl

/-- Claim C5, amended: `clone_from` does fail loudly (its assert panics when
the destination is shorter than the source, and otherwise it copies within
bounds), and out-of-bounds ARP field access on an unvalidated buffer panics;
but `set_payload` performs no length check: a payload longer than the
backing buffer minus 14 bytes is written past the buffer end instead of
panicking. -/
theorem claim_C5_amended :
    (∀ self' other : List Nat, other.length ≤ self'.length →
      ether.clone_from self' other =
        some (other ++ self'.drop other.length) ∧
      (other ++ self'.drop other.length).length = self'.length ∧
      (other ++ self'.drop other.length).take other.length = other) ∧
    (∀ self' other : List Nat, self'.length < other.length →
      ether.clone_from self' other = none) ∧
    (∀ (s : ether.MutableEthernetPacket) (vals : List Nat),
      (s.set_payload vals).length = max s.packet.length (14 + vals.length)) ∧
    (∀ (s : ether.MutableEthernetPacket) (vals : List Nat),
      s.packet.length < 14 + vals.length →
      s.packet.length < (s.set_payload vals).length) ∧
    (∀ (buffer : List Nat) (h p : Nat),
      buffer[arp.HLEN]? = some h → buffer[arp.PLEN]? = some p →
      buffer.length < 8 + h →
      arp.source_hardware_addr buffer = none) := by
  refine ⟨?_, ?_, ?_, ?_, ?_⟩
  · intro self' other hle
    refine ⟨by simp [ether.clone_from, hle], by simp; omega, List.take_left _ _⟩
  · intro self' other hlt
    simp [ether.clone_from]
    omega
  · intro s vals
    have := s.len_ok
    simp [ether.MutableEthernetPacket.set_payload]
    omega
  · intro s vals hlt
    have := s.len_ok
    simp [ether.MutableEthernetPacket.set_payload]
    omega
  · intro buffer h p h4 h5 hshort
    simp only [arp.source_hardware_addr, h4, h5]
    simp [arp.sliceRange, arp.SHA, arp.OPER]
    omega

/-- Witness for C5 amended, at concrete inputs: a fitting clone succeeds, a
mismatched clone panics, and an oversized payload writes past the end. -/
theorem claim_C5_witness :
    (ether.clone_from [0, 0, 0] [1, 2] = some ([1, 2] ++ [0, 0, 0].drop 2) ∧
      (([1, 2] ++ [0, 0, 0].drop 2) : List Nat).length = ([0, 0, 0] : List Nat).length ∧
      (([1, 2] ++ [0, 0, 0].drop 2) : List Nat).take 2 = [1, 2]) ∧
    ether.clone_from [0] [1, 2] = none ∧
    (⟨List.replicate 14 0, by decide⟩ :
        ether.MutableEthernetPacket).packet.length <
      ((⟨List.replicate 14 0, by decide⟩ :
        ether.MutableEthernetPacket).set_payload [7]).length :=
  ⟨claim_C5_amended.1 [0, 0, 0] [1, 2] (by decide),
   claim_C5_amended.2.1 [0] [1, 2] (by decide),
   claim_C5_amended.2.2.2.1 _ [7] (by decide)⟩

/-- Claim C8: on any mutable Ethernet view whose bytes are byte values,
writing back the decoded destination, source, or ethertype leaves the view
unchanged — the MAC and big-endian ethertype fields round-trip through their
decode/encode pairs. -/
theorem claim_C8 (s : ether.MutableEthernetPacket)
    (hbytes : ∀ b ∈ s.packet, b < 256) :
    s.set_destination s.get_destination = s ∧
    s.set_source s.get_source = s ∧
    s.set_ethertype s.get_ethertype = s := by
  have hlen := s.len_ok
  refine ⟨?_, ?_, ?_⟩
  · apply MutPkt_eq_of_packet_eq
    simp only [ether.MutableEthernetPacket.set_destination,
      ether.MutableEthernetPacket.get_destination, ether.MutableEthernetPacket.byte]
    rw [set_getD_self _ 0 (by omega), set_getD_self _ 1 (by omega),
      set_getD_self _ 2 (by omega), set_getD_self _ 3 (by omega),
      set_getD_self _ 4 (by omega), set_getD_self _ 5 (by omega)]
  · apply MutPkt_eq_of_packet_eq
    simp only [ether.MutableEthernetPacket.set_source,
      ether.MutableEthernetPacket.get_source, ether.MutableEthernetPacket.byte]
    rw [set_getD_self _ 6 (by omega), set_getD_self _ 7 (by omega),
      set_getD_self _ 8 (by omega), set_getD_self _ 9 (by omega),
      set_getD_self _ 10 (by omega), set_getD_self _ 11 (by omega)]
  · apply MutPkt_eq_of_packet_eq
    simp only [ether.MutableEthernetPacket.set_ethertype,
      ether.MutableEthernetPacket.get_ethertype, ether.EtherType.new,
      ether.MutableEthernetPacket.byte]
    rw [ethertype_hi_byte _ _ (getD_lt_256 _ hbytes 12 (by omega))
        (getD_lt_256 _ hbytes 13 (by omega)),
      ethertype_lo_byte _ _ (getD_lt_256 _ hbytes 13 (by omega)),
      set_getD_self _ 12 (by omega), set_getD_self _ 13 (by omega)]

/-- Witness for C8 on a concrete 14-byte frame. -/
theorem claim_C8_witness :
    (∀ b ∈ ([255, 2, 3, 4, 5, 6, 7, 8, 9, 10, 11, 12, 8, 6] : List Nat), b < 256) ∧
    (⟨[255, 2, 3, 4, 5, 6, 7, 8, 9, 10, 11, 12, 8, 6], by decide⟩ :
        ether.MutableEthernetPacket).set_ethertype
      (⟨[255, 2, 3, 4, 5, 6, 7, 8, 9, 10, 11, 12, 8, 6], by decide⟩ :
        ether.MutableEthernetPacket).get_ethertype =
      ⟨[255, 2, 3, 4, 5, 6, 7, 8, 9, 10, 11, 12, 8, 6], by decide⟩ :=
  ⟨by decide,
   (claim_C8 ⟨[255, 2, 3, 4, 5, 6, 7, 8, 9, 10, 11, 12, 8, 6], by decide⟩
     (by decide)).2.2⟩

/-- Claim C4: for all declared lengths up to 255, the four ARP address
ranges are contiguous and in order starting at offset 8, end exactly at
`8 + 2*hardware_len + 2*protocol_len`, and are pairwise non-overlapping;
`check_len` accepts a buffer of exactly that total size (with those declared
lengths in bytes 4 and 5) and rejects a buffer one byte shorter as
Truncated. -/
theorem claim_C4 (h p : Nat) (hh : h ≤ 255) (hp : p ≤ 255) :
    ((arp.SHA h p).1 = 8 ∧
     (arp.SPA h p).1 = (arp.SHA h p).2 ∧
     (arp.THA h p).1 = (arp.SPA h p).2 ∧
     (arp.TPA h p).1 = (arp.THA h p).2 ∧
     (arp.TPA h p).2 = 8 + 2 * h + 2 * p) ∧
    List.Pairwise (fun f g => ∀ i, ¬(arp.inField f i ∧ arp.inField g i))
      [arp.SHA h p, arp.SPA h p, arp.THA h p, arp.TPA h p] ∧
    (∀ buffer : List Nat, buffer.length = 8 + 2 * h + 2 * p →
      buffer.getD arp.HLEN 0 = h → buffer.getD arp.PLEN 0 = p →
      arp.check_len buffer = .ok ()) ∧
    (∀ buffer : List Nat, buffer.length + 1 = 8 + 2 * h + 2 * p →
      buffer.getD arp.HLEN 0 = h → buffer.getD arp.PLEN 0 = p →
      arp.check_len buffer = .error .Truncated) := by
  refine ⟨⟨rfl, rfl, rfl, rfl, ?_⟩, ?_, ?_, ?_⟩
  · simp [arp.TPA, arp.THA, arp.SPA, arp.SHA, arp.OPER]
    omega
  · refine List.Pairwise.cons ?_ (List.Pairwise.cons ?_ (List.Pairwise.cons ?_
      (List.Pairwise.cons ?_ List.Pairwise.nil)))
    · intro g hg i
      simp only [List.mem_cons, List.not_mem_nil, or_false] at hg
      rcases hg with rfl | rfl | rfl <;>
        · simp only [arp.inField, arp.TPA, arp.THA, arp.SPA, arp.SHA, arp.OPER]
          omega
    · intro g hg i
      simp only [List.mem_cons, List.not_mem_nil, or_false] at hg
      rcases hg with rfl | rfl <;>
        · simp only [arp.inField, arp.TPA, arp.THA, arp.SPA, arp.SHA, arp.OPER]
          omega
    · intro g hg i
      simp only [List.mem_cons, List.not_mem_nil, or_false] at hg
      subst hg
      simp only [arp.inField, arp.TPA, arp.THA, arp.SPA, arp.SHA, arp.OPER]
      omega
    · intro g hg
      exact absurd hg (List.not_mem_nil g)
  · intro buffer hlen h4 h5
    unfold arp.check_len
    rw [h4, h5]
    rw [if_neg (by simp [arp.OPER]; omega),
      if_neg (by simp [arp.TPA, arp.THA, arp.SPA, arp.SHA, arp.OPER]; omega)]
  · intro buffer hlen h4 h5
    unfold arp.check_len
    rw [h4, h5]
    by_cases hsm : buffer.length < arp.OPER.2
    · rw [if_pos hsm]
    · rw [if_neg hsm,
        if_pos (by simp [arp.TPA, arp.THA, arp.SPA, arp.SHA, arp.OPER]; omega)]

/-- Witness for C4 at hardware_len 6, protocol_len 4: the 28-byte buffer is
accepted, a 7-byte buffer with both declared lengths 0 is rejected. -/
theorem claim_C4_witness :
    arp.check_len [0, 1, 8, 0, 6, 4, 0, 1,
      1, 1, 1, 1, 1, 1, 2, 2, 2, 2, 3, 3, 3, 3, 3, 3, 4, 4, 4, 4] = .ok () ∧
    arp.check_len [0, 0, 0, 0, 0, 0, 0] = .error .Truncated :=
  ⟨(claim_C4 6 4 (by decide) (by decide)).2.2.1 _ (by decide) (by decide) (by decide),
   (claim_C4 0 0 (by decide) (by decide)).2.2.2 _ (by decide) (by decide) (by decide)⟩

theorem check_len_ok_le (buffer : List Nat) (h p : Nat)
    (h4 : buffer[arp.HLEN]? = some h) (h5 : buffer[arp.PLEN]? = some p)
    (hok : arp.check_len buffer = .ok ()) :
    8 + 2 * h + 2 * p ≤ buffer.length := by
  unfold arp.check_len at hok
  have hg4 : buffer.getD arp.HLEN 0 = h := by
    rw [List.getD_eq_getElem?_getD, h4]
    rfl
  have hg5 : buffer.getD arp.PLEN 0 = p := by
    rw [List.getD_eq_getElem?_getD, h5]
    rfl
  rw [hg4, hg5] at hok
  split_ifs at hok with h1 h2
  all_goals try simp at hok
  simp only [arp.TPA, arp.THA, arp.SPA, arp.SHA, arp.OPER] at h2
  omega

theorem arp_write_facts (buffer value : List Nat) (h p a b : Nat)
    (h4 : buffer[arp.HLEN]? = some h) (h5 : buffer[arp.PLEN]? = some p)
    (h8 : 8 ≤ a) (hab : a ≤ b) (hb : b ≤ buffer.length) (hv : value.length = b - a) :
    arp.writeRange buffer (a, b) value =
      some (buffer.take a ++ (value ++ buffer.drop b)) ∧
    (buffer.take a ++ (value ++ buffer.drop b))[arp.HLEN]? = some h ∧
    (buffer.take a ++ (value ++ buffer.drop b))[arp.PLEN]? = some p ∧
    arp.sliceRange (buffer.take a ++ (value ++ buffer.drop b)) (a, b) = some value ∧
    (buffer.take a ++ (value ++ buffer.drop b)).take 8 = buffer.take 8 := by
  refine ⟨writeRange_eq _ _ _ _ hab hb hv, ?_, ?_,
    sliceRange_spliced_self _ _ _ _ hab hb hv, take_spliced _ _ _ _ 8 hab hb hv h8⟩
  · rw [getElem?_spliced_low _ _ _ _ _ hab hb hv
      (show arp.HLEN < a by simp only [arp.HLEN]; omega)]
    exact h4
  · rw [getElem?_spliced_low _ _ _ _ _ hab hb hv
      (show arp.PLEN < a by simp only [arp.PLEN]; omega)]
    exact h5

/-- Claim C7: on a buffer accepted by `check_len` with declared lengths
`h` and `p`, writing any one of the four address fields with a value of the
matching declared length succeeds (no panic), reading that field back yields
exactly the written bytes, and the other three address fields as well as the
fixed 8-byte header are unchanged. -/
theorem claim_C7 (buffer : List Nat) (h p : Nat) (value : List Nat)
    (hok : arp.check_len buffer = .ok ())
    (h4 : buffer[arp.HLEN]? = some h) (h5 : buffer[arp.PLEN]? = some p) :
    (value.length = h →
      ∃ buffer', arp.set_source_hardware_addr buffer value = some buffer' ∧
        arp.source_hardware_addr buffer' = some value ∧
        arp.source_protocol_addr buffer' = arp.source_protocol_addr buffer ∧
        arp.target_hardware_addr buffer' = arp.target_hardware_addr buffer ∧
        arp.target_protocol_addr buffer' = arp.target_protocol_addr buffer ∧
        buffer'.take 8 = buffer.take 8) ∧
    (value.length = p →
      ∃ buffer', arp.set_source_protocol_addr buffer value = some buffer' ∧
        arp.source_protocol_addr buffer' = some value ∧
        arp.source_hardware_addr buffer' = arp.source_hardware_addr buffer ∧
        arp.target_hardware_addr buffer' = arp.target_hardware_addr buffer ∧
        arp.target_protocol_addr buffer' = arp.target_protocol_addr buffer ∧
        buffer'.take 8 = buffer.take 8) ∧
    (value.length = h →
      ∃ buffer', arp.set_target_hardware_addr buffer value = some buffer' ∧
        arp.target_hardware_addr buffer' = some value ∧
        arp.source_hardware_addr buffer' = arp.source_hardware_addr buffer ∧
        arp.source_protocol_addr buffer' = arp.source_protocol_addr buffer ∧
        arp.target_protocol_addr buffer' = arp.target_protocol_addr buffer ∧
        buffer'.take 8 = buffer.take 8) ∧
    (value.length = p →
      ∃ buffer', arp.set_target_protocol_addr buffer value = some buffer' ∧
        arp.target_protocol_addr buffer' = some value ∧
        arp.source_hardware_addr buffer' = arp.source_hardware_addr buffer ∧
        arp.source_protocol_addr buffer' = arp.source_protocol_addr buffer ∧
        arp.target_hardware_addr buffer' = arp.target_hardware_addr buffer ∧
        buffer'.take 8 = buffer.take 8) := by
  have htot : 8 + 2 * h + 2 * p ≤ buffer.length := check_len_ok_le buffer h p h4 h5 hok
  refine ⟨?_, ?_, ?_, ?_⟩
  · intro hv
    obtain ⟨hw, hW4, hW5, hWslice, hWtake⟩ :=
      arp_write_facts buffer value h p 8 (8 + h) h4 h5 (le_refl 8)
        (by omega) (by omega) (by omega)
    refine ⟨_, ?_, ?_, ?_, ?_, ?_, hWtake⟩
    · simp only [arp.set_source_hardware_addr, h4, h5]
      rw [show arp.SHA h p = (8, 8 + h) from rfl]
      exact hw
    · simp only [arp.source_hardware_addr, hW4, hW5]
      rw [show arp.SHA h p = (8, 8 + h) from rfl]
      exact hWslice
    · simp only [arp.source_protocol_addr, hW4, hW5, h4, h5]
      rw [show arp.SPA h p = (8 + h, 8 + h + p) from rfl]
      exact sliceRange_spliced_untouched buffer value 8 (8 + h) (8 + h) (8 + h + p)
        (by omega) (by omega) (by omega) (by omega) (by omega) (by omega)
    · simp only [arp.target_hardware_addr, hW4, hW5, h4, h5]
      rw [show arp.THA h p = (8 + h + p, 8 + h + p + h) from rfl]
      exact sliceRange_spliced_untouched buffer value 8 (8 + h) (8 + h + p) (8 + h + p + h)
        (by omega) (by omega) (by omega) (by omega) (by omega) (by omega)
    · simp only [arp.target_protocol_addr, hW4, hW5, h4, h5]
      rw [show arp.TPA h p = (8 + h + p + h, 8 + h + p + h + p) from rfl]
      exact sliceRange_spliced_untouched buffer value 8 (8 + h)
        (8 + h + p + h) (8 + h + p + h + p)
        (by omega) (by omega) (by omega) (by omega) (by omega) (by omega)
  · intro hv
    obtain ⟨hw, hW4, hW5, hWslice, hWtake⟩ :=
      arp_write_facts buffer value h p (8 + h) (8 + h + p) h4 h5 (by omega)
        (by omega) (by omega) (by omega)
    refine ⟨_, ?_, ?_, ?_, ?_, ?_, hWtake⟩
    · simp only [arp.set_source_protocol_addr, h4, h5]
      rw [show arp.SPA h p = (8 + h, 8 + h + p) from rfl]
      exact hw
    · simp only [arp.source_protocol_addr, hW4, hW5]
      rw [show arp.SPA h p = (8 + h, 8 + h + p) from rfl]
      exact hWslice
    · simp only [arp.source_hardware_addr, hW4, hW5, h4, h5]
      rw [show arp.SHA h p = (8, 8 + h) from rfl]
      exact sliceRange_spliced_untouched buffer value (8 + h) (8 + h + p) 8 (8 + h)
        (by omega) (by omega) (by omega) (by omega) (by omega) (by omega)
    · simp only [arp.target_hardware_addr, hW4, hW5, h4, h5]
      rw [show arp.THA h p = (8 + h + p, 8 + h + p + h) from rfl]
      exact sliceRange_spliced_untouched buffer value (8 + h) (8 + h + p)
        (8 + h + p) (8 + h + p + h)
        (by omega) (by omega) (by omega) (by omega) (by omega) (by omega)
    · simp only [arp.target_protocol_addr, hW4, hW5, h4, h5]
      rw [show arp.TPA h p = (8 + h + p + h, 8 + h + p + h + p) from rfl]
      exact sliceRange_spliced_untouched buffer value (8 + h) (8 + h + p)
        (8 + h + p + h) (8 + h + p + h + p)
        (by omega) (by omega) (by omega) (by omega) (by omega) (by omega)
  · intro hv
    obtain ⟨hw, hW4, hW5, hWslice, hWtake⟩ :=
      arp_write_facts buffer value h p (8 + h + p) (8 + h + p + h) h4 h5 (by omega)
        (by omega) (by omega) (by omega)
    refine ⟨_, ?_, ?_, ?_, ?_, ?_, hWtake⟩
    · simp only [arp.set_target_hardware_addr, h4, h5]
      rw [show arp.THA h p = (8 + h + p, 8 + h + p + h) from rfl]
      exact hw
    · simp only [arp.target_hardware_addr, hW4, hW5]
      rw [show arp.THA h p = (8 + h + p, 8 + h + p + h) from rfl]
      exact hWslice
    · simp only [arp.source_hardware_addr, hW4, hW5, h4, h5]
      rw [show arp.SHA h p = (8, 8 + h) from rfl]
      exact sliceRange_spliced_untouched buffer value (8 + h + p) (8 + h + p + h) 8 (8 + h)
        (by omega) (by omega) (by omega) (by omega) (by omega) (by omega)
    · simp only [arp.source_protocol_addr, hW4, hW5, h4, h5]
      rw [show arp.SPA h p = (8 + h, 8 + h + p) from rfl]
      exact sliceRange_spliced_untouched buffer value (8 + h + p) (8 + h + p + h)
        (8 + h) (8 + h + p)
        (by omega) (by omega) (by omega) (by omega) (by omega) (by omega)
    · simp only [arp.target_protocol_addr, hW4, hW5, h4, h5]
      rw [show arp.TPA h p = (8 + h + p + h, 8 + h + p + h + p) from rfl]
      exact sliceRange_spliced_untouched buffer value (8 + h + p) (8 + h + p + h)
        (8 + h + p + h) (8 + h + p + h + p)
        (by omega) (by omega) (by omega) (by omega) (by omega) (by omega)
  · intro hv
    obtain ⟨hw, hW4, hW5, hWslice, hWtake⟩ :=
      arp_write_facts buffer value h p (8 + h + p + h) (8 + h + p + h + p) h4 h5 (by omega)
        (by omega) (by omega) (by omega)
    refine ⟨_, ?_, ?_, ?_, ?_, ?_, hWtake⟩
    · simp only [arp.set_target_protocol_addr, h4, h5]
      rw [show arp.TPA h p = (8 + h + p + h, 8 + h + p + h + p) from rfl]
      exact hw
    · simp only [arp.target_protocol_addr, hW4, hW5]
      rw [show arp.TPA h p = (8 + h + p + h, 8 + h + p + h + p) from rfl]
      exact hWslice
    · simp only [arp.source_hardware_addr, hW4, hW5, h4, h5]
      rw [show arp.SHA h p = (8, 8 + h) from rfl]
      exact sliceRange_spliced_untouched buffer value (8 + h + p + h) (8 + h + p + h + p)
        8 (8 + h)
        (by omega) (by omega) (by omega) (by omega) (by omega) (by omega)
    · simp only [arp.source_protocol_addr, hW4, hW5, h4, h5]
      rw [show arp.SPA h p = (8 + h, 8 + h + p) from rfl]
      exact sliceRange_spliced_untouched buffer value (8 + h + p + h) (8 + h + p + h + p)
        (8 + h) (8 + h + p)
        (by omega) (by omega) (by omega) (by omega) (by omega) (by omega)
    · simp only [arp.target_hardware_addr, hW4, hW5, h4, h5]
      rw [show arp.THA h p = (8 + h + p, 8 + h + p + h) from rfl]
      exact sliceRange_spliced_untouched buffer value (8 + h + p + h) (8 + h + p + h + p)
        (8 + h + p) (8 + h + p + h)
        (by omega) (by omega) (by omega) (by omega) (by omega) (by omega)

/-- Witness for C7 on a 12-byte ARP message with declared lengths 1 and 1:
writing the sender hardware address field round-trips. -/
theorem claim_C7_witness :
    arp.check_len [0, 1, 8, 0, 1, 1, 0, 1, 9, 8, 7, 6] = .ok () ∧
    (∃ buffer',
      arp.set_source_hardware_addr [0, 1, 8, 0, 1, 1, 0, 1, 9, 8, 7, 6] [42] = some buffer' ∧
      arp.source_hardware_addr buffer' = some [42] ∧
      arp.source_protocol_addr buffer' =
        arp.source_protocol_addr [0, 1, 8, 0, 1, 1, 0, 1, 9, 8, 7, 6] ∧
      arp.target_hardware_addr buffer' =
        arp.target_hardware_addr [0, 1, 8, 0, 1, 1, 0, 1, 9, 8, 7, 6] ∧
      arp.target_protocol_addr buffer' =
        arp.target_protocol_addr [0, 1, 8, 0, 1, 1, 0, 1, 9, 8, 7, 6] ∧
      buffer'.take 8 = ([0, 1, 8, 0, 1, 1, 0, 1, 9, 8, 7, 6] : List Nat).take 8) :=
  ⟨rfl,
   (claim_C7 [0, 1, 8, 0, 1, 1, 0, 1, 9, 8, 7, 6] 1 1 [42]
     rfl rfl rfl).1 (by decide)⟩

theorem retry_no_eintr (attempts : List Channel.SyscallRet) (r : Channel.SyscallRet)
    (hr : Channel.retry attempts = some r) :
    ¬(r.ret = -1 ∧ r.errno = Channel.EINTR) := by
  unfold Channel.retry at hr
  have hp := List.find?_some hr
  rintro ⟨h1, h2⟩
  simp [h1, h2] at hp

theorem retry_mem (attempts : List Channel.SyscallRet) (r : Channel.SyscallRet)
    (hr : Channel.retry attempts = some r) : r ∈ attempts := by
  unfold Channel.retry at hr
  exact List.mem_of_find?_eq_some hr

theorem internal_send_to_error_ne_eintr (attempts : List Channel.SyscallRet) (e : Nat)
    (hwf : ∀ r ∈ attempts, r.ret < 0 → r.ret = -1)
    (hm : Channel.internal_send_to attempts = some (.error e)) : e ≠ Channel.EINTR := by
  unfold Channel.internal_send_to at hm
  cases hr : Channel.retry attempts with
  | none =>
      rw [hr] at hm
      cases hm
  | some r =>
      rw [hr] at hm
      have hm2 : (if r.ret < 0 then some (Except.error r.errno)
          else some (Except.ok r.ret.toNat)) = some (Except.error e) := hm
      by_cases hneg : r.ret < 0
      · rw [if_pos hneg] at hm2
        have hre : r.errno = e := by
          simp at hm2
          exact hm2
        have hr1 : r.ret = -1 := hwf r (retry_mem attempts r hr) hneg
        intro hcontra
        exact retry_no_eintr attempts r hr ⟨hr1, by rw [hre, hcontra]⟩
      · rw [if_neg hneg] at hm2
        simp at hm2

theorem internal_recv_from_error_ne_eintr (attempts : List Channel.SyscallRet) (e : Nat)
    (hwf : ∀ r ∈ attempts, r.ret < 0 → r.ret = -1)
    (hm : Channel.internal_recv_from attempts = some (.error e)) : e ≠ Channel.EINTR := by
  unfold Channel.internal_recv_from at hm
  cases hr : Channel.retry attempts with
  | none =>
      rw [hr] at hm
      cases hm
  | some r =>
      rw [hr] at hm
      have hm2 : (if r.ret < 0 then some (Except.error r.errno)
          else some (Except.ok r.ret.toNat)) = some (Except.error e) := hm
      by_cases hneg : r.ret < 0
      · rw [if_pos hneg] at hm2
        have hre : r.errno = e := by
          simp at hm2
          exact hm2
        have hr1 : r.ret = -1 := hwf r (retry_mem attempts r hr) hneg
        intro hcontra
        exact retry_no_eintr attempts r hr ⟨hr1, by rw [hre, hcontra]⟩
      · rw [if_neg hneg] at hm2
        simp at hm2

theorem next_reduce (ps : Channel.SyscallRet) (attempts : List Channel.SyscallRet)
    (buf : List Nat) (len : Nat)
    (hne1 : ps.ret ≠ -1) (hne0 : ps.ret ≠ 0)
    (hrecv : Channel.internal_recv_from attempts = some (.ok len)) :
    Channel.next ps attempts buf =
      if len ≤ buf.length then
        (match ether.EthernetPacket.new (buf.take len) with
          | some pkt => Channel.NextOutcome.ok pkt
          | none => Channel.NextOutcome.panicked)
      else Channel.NextOutcome.panicked := by
  unfold Channel.next
  rw [if_neg hne1, if_neg hne0, hrecv]

/-- Claim C1, counterexample: a `pselect` readiness wait interrupted by a
signal (return -1, errno EINTR) is surfaced by `send_to` to the caller as an
OS error — it is not retried. -/
theorem claim_C1_counterexample :
    Channel.send_to ⟨-1, Channel.EINTR⟩ [] = .err (.os Channel.EINTR) := by decide

/-- Claim C1, amended: EINTR from the `sendto`/`recvfrom` I/O syscalls is
retried inside `internal::retry` and never surfaced (so, when the readiness
wait succeeded, any OS error surfaced by `send_to` or `next` is not EINTR);
but an EINTR that interrupts the `pselect` readiness wait itself is surfaced
to the caller as an ordinary OS error. -/
theorem claim_C1_amended :
    (∀ (attempts : List Channel.SyscallRet) (r : Channel.SyscallRet),
      Channel.retry attempts = some r → ¬(r.ret = -1 ∧ r.errno = Channel.EINTR)) ∧
    (∀ (ps : Channel.SyscallRet) (attempts : List Channel.SyscallRet) (e : Nat),
      (∀ r ∈ attempts, r.ret < 0 → r.ret = -1) → 0 < ps.ret →
      (Channel.send_to ps attempts = .err (.os e) → e ≠ Channel.EINTR) ∧
      (∀ buf : List Nat,
        Channel.next ps attempts buf = .err (.os e) → e ≠ Channel.EINTR)) ∧
    (∀ (ps : Channel.SyscallRet) (attempts : List Channel.SyscallRet),
      ps.ret = -1 →
      Channel.send_to ps attempts = .err (.os ps.errno) ∧
      (∀ buf : List Nat, Channel.next ps attempts buf = .err (.os ps.errno))) := by
  refine ⟨retry_no_eintr, ?_, ?_⟩
  · intro ps attempts e hwf hps
    have hne1 : ps.ret ≠ -1 := by omega
    have hne0 : ps.ret ≠ 0 := by omega
    constructor
    · intro he
      unfold Channel.send_to at he
      rw [if_neg hne1, if_neg hne0] at he
      cases hm : Channel.internal_send_to attempts with
      | none => rw [hm] at he; cases he
      | some x =>
          cases x with
          | error e' =>
              rw [hm] at he
              simp at he
              have hne := internal_send_to_error_ne_eintr attempts e' hwf hm
              simp only [Channel.EINTR] at hne ⊢
              omega
          | ok n => rw [hm] at he; cases he
    · intro buf he
      cases hm : Channel.internal_recv_from attempts with
      | none =>
          unfold Channel.next at he
          rw [if_neg hne1, if_neg hne0, hm] at he
          cases he
      | some x =>
          cases x with
          | error e' =>
              unfold Channel.next at he
              rw [if_neg hne1, if_neg hne0, hm] at he
              simp at he
              have hne := internal_recv_from_error_ne_eintr attempts e' hwf hm
              simp only [Channel.EINTR] at hne ⊢
              omega
          | ok len =>
              rw [next_reduce ps attempts buf len hne1 hne0 hm] at he
              by_cases hl : len ≤ buf.length
              · rw [if_pos hl] at he
                cases hnew : ether.EthernetPacket.new (buf.take len) with
                | none => rw [hnew] at he; cases he
                | some q => rw [hnew] at he; cases he
              · rw [if_neg hl] at he
                cases he
  · intro ps attempts hps
    refine ⟨?_, fun buf => ?_⟩
    · unfold Channel.send_to
      rw [if_pos hps]
    · unfold Channel.next
      rw [if_pos hps]

/-- Witness for C1 amended: a pselect EINTR is surfaced, while a transient
EINTR before a real `sendto` failure (errno 13) is absorbed so the surfaced
errno 13 differs from EINTR. -/
theorem claim_C1_witness :
    Channel.send_to ⟨-1, 4⟩ [] = .err (.os 4) ∧ (13 : Nat) ≠ Channel.EINTR :=
  ⟨(claim_C1_amended.2.2 ⟨-1, 4⟩ [] rfl).1,
   (claim_C1_amended.2.1 ⟨1, 0⟩ [⟨-1, 4⟩, ⟨-1, 13⟩] 13 (by decide) (by decide)).1
     (by decide)⟩

/-- Claim C6: when the readiness wait succeeded and the OS read returned
`len` bytes, `next` panics (unwrap of a failed view construction) whenever
`len < 14`, and a successful yield implies `len ≥ 14` with the yielded view
borrowing exactly the `len` bytes read. -/
theorem claim_C6 (ps : Channel.SyscallRet) (attempts : List Channel.SyscallRet)
    (buf : List Nat) (len : Nat)
    (hps : 0 < ps.ret)
    (hrecv : Channel.internal_recv_from attempts = some (.ok len))
    (hlen : len ≤ buf.length) :
    (len < 14 → Channel.next ps attempts buf = .panicked) ∧
    (∀ pkt, Channel.next ps attempts buf = .ok pkt →
      14 ≤ len ∧ pkt.packet = buf.take len) := by
  have hne1 : ps.ret ≠ -1 := by omega
  have hne0 : ps.ret ≠ 0 := by omega
  have htk : (buf.take len).length = len := by
    simp [List.length_take]
    omega
  rw [next_reduce ps attempts buf len hne1 hne0 hrecv]
  constructor
  · intro h14
    have hnone : ether.EthernetPacket.new (buf.take len) = none := by
      unfold ether.EthernetPacket.new ether.minimum_packet_size
      rw [dif_neg (by omega : ¬ 14 ≤ (buf.take len).length)]
    rw [if_pos hlen, hnone]
  · intro pkt hpk
    rw [if_pos hlen] at hpk
    cases hnew : ether.EthernetPacket.new (buf.take len) with
    | none =>
        rw [hnew] at hpk
        cases hpk
    | some q =>
        rw [hnew] at hpk
        have hqp : q = pkt := by injection hpk
        unfold ether.EthernetPacket.new ether.minimum_packet_size at hnew
        by_cases h14 : 14 ≤ (buf.take len).length
        · rw [dif_pos h14] at hnew
          have hq : q = ⟨buf.take len, h14⟩ := by
            simp at hnew
            exact hnew.symm
          subst hqp
          subst hq
          exact ⟨by omega, rfl⟩
        · rw [dif_neg h14] at hnew
          cases hnew

/-- Witness for C6: a 10-byte read on a 16-byte scratch buffer panics. -/
theorem claim_C6_witness :
    Channel.next ⟨1, 0⟩ [⟨10, 0⟩] (List.replicate 16 0) = .panicked :=
  (claim_C6 ⟨1, 0⟩ [⟨10, 0⟩] (List.replicate 16 0) 10
    (by decide) rfl (by decide)).1 (by decide)

end Myox
